import Mathlib

/-!
Verification of the study-progress and chat-context domain logic of the
Telegram assistant bot (`database/db_manager.py`, `modules/schedule_manager.py`).

The relational store is modelled by lists kept in insertion order, which is
also `created_at` order (all timestamp columns default to the time of the
insert and rows are never re-dated). `ORDER BY created_at ASC` on such a
table is list order, `ORDER BY created_at DESC` is the reversed list.
-/

namespace Assistant

/-- A row of the `chat_history` table (`models.ChatHistory`): `id` is the
primary key, `user_id` the owner, `role` the stored role string and
`message` the text. -/
structure ChatHistory where
  id : Nat
  user_id : Nat
  role : String
  message : String
  deriving Repr, DecidableEq

/-- `config.MAX_CHAT_HISTORY` (default 50). -/
def MAX_CHAT_HISTORY : Nat := 50

/-- `config.CONTEXT_WINDOW` (default 10). -/
def CONTEXT_WINDOW : Nat := 10

/-- Delete the first `k` rows belonging to `uid`, keeping every other row in
place.  This is the effect of `DatabaseManager._cleanup_old_messages` deleting
the rows returned by
`query(ChatHistory).filter_by(user_id=...).order_by(created_at.asc()).limit(k)`:
the `k` oldest rows of that user, in insertion order. -/
def removeOldest (uid : Nat) : Nat → List ChatHistory → List ChatHistory
  | 0, l => l
  | _+1, [] => []
  | k+1, m :: rest =>
      if m.user_id == uid then removeOldest uid k rest
      else m :: removeOldest uid (k+1) rest

/-- `DatabaseManager._cleanup_old_messages`: count the user's rows and, when
the count exceeds `MAX_CHAT_HISTORY`, delete the oldest
`count - MAX_CHAT_HISTORY` rows of that user. -/
def cleanup_old_messages (uid : Nat) (msgs : List ChatHistory) : List ChatHistory :=
  let count := (msgs.filter (fun m => m.user_id == uid)).length
  if count > MAX_CHAT_HISTORY then
    removeOldest uid (count - MAX_CHAT_HISTORY) msgs
  else
    msgs

/-- `DatabaseManager.add_chat_message`: insert the new row, then run the
cleanup for that user in the same operation.  `newId` models the
auto-increment primary key of the inserted row. -/
def add_chat_message (msgs : List ChatHistory) (uid : Nat) (role message : String)
    (newId : Nat) : List ChatHistory :=
  cleanup_old_messages uid (msgs ++ [⟨newId, uid, role, message⟩])

/-- A history entry in the shape handed to the LLM client: the code builds
`{'role': role, 'parts': [{'text': msg.message}]}`; we keep the role and the
text. -/
structure GeminiMessage where
  role : String
  text : String
  deriving Repr, DecidableEq

/-- Role normalization of `DatabaseManager.get_chat_history`: the if/elif
chain mapping stored `'assistant'` to `'model'`, keeping `'user'` and
`'model'`, and skipping (with a warning) any other role. -/
def normalizeRole (r : String) : Option String :=
  if r = "assistant" then some "model"
  else if r = "user" then some "user"
  else if r = "model" then some "model"
  else none

/-- `DatabaseManager.get_chat_history`: select the user's rows ordered by
`created_at DESC` (the reversed list), apply `LIMIT limit` (`take`), reverse
back to chronological order, then normalize roles, dropping rows whose role
is not recognized. -/
def get_chat_history (msgs : List ChatHistory) (uid : Nat) (limit : Nat) :
    List GeminiMessage :=
  let selected := (((msgs.filter (fun m => m.user_id == uid)).reverse).take limit).reverse
  selected.filterMap (fun m => (normalizeRole m.role).map (fun r => ⟨r, m.message⟩))

/-- Modelled from the spec's role-mapping table for `get_context`:
stored "assistant" → "model", stored "user" → "user", stored "model" →
"model", anything else dropped. -/
def specRoleMap (r : String) : Option String :=
  match r with
  | "assistant" => some "model"
  | "user" => some "user"
  | "model" => some "model"
  | _ => none

lemma filter_removeOldest (uid : Nat) :
    ∀ (k : Nat) (l : List ChatHistory),
      (removeOldest uid k l).filter (fun m => m.user_id == uid) =
        ((l.filter (fun m => m.user_id == uid)).drop k) := by
  intro k l
  induction l generalizing k with
  | nil => cases k <;> simp [removeOldest]
  | cons m rest ih =>
    cases k with
    | zero => simp [removeOldest]
    | succ k =>
      by_cases hm : (m.user_id == uid) = true
      · simp [removeOldest, hm, List.filter_cons, ih k]
      · simp only [Bool.not_eq_true] at hm
        simp [removeOldest, hm, List.filter_cons, ih (k + 1)]

lemma filter_cleanup (uid : Nat) (l : List ChatHistory) :
    (cleanup_old_messages uid l).filter (fun m => m.user_id == uid) =
      (l.filter (fun m => m.user_id == uid)).drop
        ((l.filter (fun m => m.user_id == uid)).length - MAX_CHAT_HISTORY) := by
  unfold cleanup_old_messages
  by_cases h : (l.filter (fun m => m.user_id == uid)).length > MAX_CHAT_HISTORY
  · simp only [h, if_true]
    exact filter_removeOldest uid _ l
  · simp only [h, if_false]
    have : (l.filter (fun m => m.user_id == uid)).length - MAX_CHAT_HISTORY = 0 := by
      omega
    simp [this]

lemma takeLast_eq_drop {α : Type} (l : List α) (n : Nat) :
    (l.reverse.take n).reverse = l.drop (l.length - n) := by
  have h := List.rtake_eq_reverse_take_reverse l n
  unfold List.rtake at h
  exact h.symm

lemma normalizeRole_eq_specRoleMap (r : String) : normalizeRole r = specRoleMap r := by
  unfold normalizeRole specRoleMap
  by_cases h1 : r = "assistant"
  · subst h1; rfl
  · by_cases h2 : r = "user"
    · subst h2; rfl
    · by_cases h3 : r = "model"
      · subst h3; rfl
      · simp [h1, h2, h3]

/-- C4: after any `add_chat_message`, the user's stored row count is at most
`MAX_CHAT_HISTORY`, and the retained rows are exactly the most recently
inserted ones: the suffix of the appended per-user log obtained by dropping
the oldest excess rows, with no gaps in the middle. -/
theorem add_chat_message_retention (msgs : List ChatHistory) (uid : Nat)
    (role message : String) (newId : Nat) :
    ((add_chat_message msgs uid role message newId).filter
        (fun m => m.user_id == uid)).length ≤ MAX_CHAT_HISTORY ∧
    (add_chat_message msgs uid role message newId).filter (fun m => m.user_id == uid) =
      (msgs.filter (fun m => m.user_id == uid) ++
          [(⟨newId, uid, role, message⟩ : ChatHistory)]).drop
        ((msgs.filter (fun m => m.user_id == uid)).length + 1 - MAX_CHAT_HISTORY) := by
  have hfilter : (msgs ++ [(⟨newId, uid, role, message⟩ : ChatHistory)]).filter
      (fun m => m.user_id == uid) =
      msgs.filter (fun m => m.user_id == uid) ++ [⟨newId, uid, role, message⟩] := by
    simp [List.filter_append]
  have h := filter_cleanup uid (msgs ++ [⟨newId, uid, role, message⟩])
  rw [hfilter] at h
  have hlen : (msgs.filter (fun m => m.user_id == uid) ++
      [(⟨newId, uid, role, message⟩ : ChatHistory)]).length =
      (msgs.filter (fun m => m.user_id == uid)).length + 1 := by
    simp
  rw [hlen] at h
  refine ⟨?_, h⟩
  rw [show add_chat_message msgs uid role message newId =
        cleanup_old_messages uid (msgs ++ [⟨newId, uid, role, message⟩]) from rfl, h]
  rw [List.length_drop, hlen]
  omega

/-- C5: `get_chat_history` returns the most recent `limit` rows of the user
(the suffix of the per-user log, dropped down to `limit` rows) in
chronological order, each normalized through the spec's role-mapping table
("assistant" → "model", "user" → "user", "model" → "model", anything else
silently excluded), and every returned role is "user" or "model". -/
theorem get_chat_history_spec (msgs : List ChatHistory) (uid : Nat) (limit : Nat) :
    get_chat_history msgs uid limit =
      ((msgs.filter (fun m => m.user_id == uid)).drop
          ((msgs.filter (fun m => m.user_id == uid)).length - limit)).filterMap
        (fun m => (specRoleMap m.role).map (fun r => ⟨r, m.message⟩)) ∧
    ∀ g ∈ get_chat_history msgs uid limit, g.role = "user" ∨ g.role = "model" := by
  constructor
  · unfold get_chat_history
    rw [takeLast_eq_drop]
    exact List.filterMap_congr (fun m _ => by rw [normalizeRole_eq_specRoleMap])
  · intro g hg
    unfold get_chat_history at hg
    rw [List.mem_filterMap] at hg
    obtain ⟨m, _, hmap⟩ := hg
    rw [Option.map_eq_some'] at hmap
    obtain ⟨r, hr, rfl⟩ := hmap
    unfold normalizeRole at hr
    split_ifs at hr <;> injection hr with hr <;> subst hr <;> simp

/-- Concrete store for the window-then-filter behavior of `get_chat_history`:
one valid-role row followed by one invalid-role row for user 7. -/
def c10Store : List ChatHistory := [⟨1, 7, "user", "hi"⟩, ⟨2, 7, "system", "x"⟩]

/-- C10: `get_chat_history` limits before filtering, so invalid-role rows
count against the limit: on `c10Store` with limit 1 the newest row has an
unrecognized role and the call returns fewer than `limit` messages, even
though the user has at least `limit` validly-roled rows in store. -/
theorem get_chat_history_limits_before_filtering :
    (get_chat_history c10Store 7 1).length < 1 ∧
    1 ≤ ((c10Store.filter (fun m => m.user_id == 7)).filter
        (fun m => (normalizeRole m.role).isSome)).length := by
  decide

/-- ASCII-only lowercasing of a character: SQLite's `LIKE`/`ILIKE` is
case-insensitive for ASCII letters only. -/
def asciiLowerChar (c : Char) : Char :=
  if 'A' ≤ c ∧ c ≤ 'Z' then Char.ofNat (c.toNat + 32) else c

/-- Does the list start with the given pattern? -/
def startsWithChars : List Char → List Char → Bool
  | _, [] => true
  | [], _ :: _ => false
  | h :: hs, n :: ns => h == n && startsWithChars hs ns

/-- Does `needle` occur as a contiguous sublist? -/
def containsChars (needle : List Char) : List Char → Bool
  | [] => needle.isEmpty
  | h :: hs => startsWithChars (h :: hs) needle || containsChars needle hs

/-- `column ILIKE '%needle%'`: case-insensitive substring containment, the
resolution used by `mark_topic_completed` for course names and topic
titles. -/
def ilikeContains (hay needle : String) : Bool :=
  containsChars (needle.data.map asciiLowerChar) (hay.data.map asciiLowerChar)

/-- A row of the `courses` table (`models.Course`). -/
structure Course where
  id : Nat
  user_id : Nat
  name : String
  description : String
  total_topics : Int
  completed_topics : Int
  deriving Repr, DecidableEq

/-- A row of the `topics` table (`models.Topic`); `completed_at` is a
UTC timestamp when set. -/
structure Topic where
  id : Nat
  course_id : Nat
  title : String
  week_number : Int
  is_completed : Bool
  completed_at : Option Int
  deriving Repr, DecidableEq

/-- A row of the `quizzes` table (`models.Quiz`). -/
structure Quiz where
  user_id : Nat
  topic_id : Nat
  score : Int
  total_questions : Int
  deriving Repr, DecidableEq

/-- A row of the `study_progress` table (`models.StudyProgress`);
`last_study_date` is a calendar-day number. -/
structure StudyProgress where
  user_id : Nat
  course_id : Nat
  last_study_date : Int
  streak_days : Int
  deriving Repr, DecidableEq

/-- The study-domain tables of the store, each in insertion order. -/
structure DB where
  courses : List Course
  topics : List Topic
  quizzes : List Quiz
  progresses : List StudyProgress
  deriving Repr, DecidableEq

/-- The row-level streak update of `DatabaseManager._update_study_progress`:
same day leaves the row unchanged, yesterday increments the streak, any
other previous date (gap of two or more days, or a future date) resets it
to 1. -/
def updateStudyProgress (today : Int) (p : StudyProgress) : StudyProgress :=
  if p.last_study_date = today then p
  else if p.last_study_date = today - 1 then
    { p with streak_days := p.streak_days + 1, last_study_date := today }
  else
    { p with streak_days := 1, last_study_date := today }

/-- Apply `f` to the first element satisfying `p`, keeping the rest: the
effect of mutating the row returned by `.first()`. -/
def updateFirst {α : Type} (p : α → Bool) (f : α → α) : List α → List α
  | [] => []
  | x :: xs => if p x then f x :: xs else x :: updateFirst p f xs

/-- The (user, course) row predicate of the StudyProgress lookup. -/
def progressPred (uid cid : Nat) (q : StudyProgress) : Bool :=
  q.user_id == uid && q.course_id == cid

/-- `DatabaseManager._update_study_progress` on the table: look up the
(user, course) row; create it with `streak_days = 1` and
`last_study_date = today` when absent, otherwise update it in place. -/
def update_study_progress (ps : List StudyProgress) (uid cid : Nat) (today : Int) :
    List StudyProgress :=
  match ps.find? (progressPred uid cid) with
  | none => ps ++ [⟨uid, cid, today, 1⟩]
  | some _ => updateFirst (progressPred uid cid) (updateStudyProgress today) ps

/-- One completion event's effect on the (user, course) progress row:
create-or-update, exactly the two branches of
`_update_study_progress`. -/
def progressStep (uid cid : Nat) (st : Option StudyProgress) (today : Int) :
    StudyProgress :=
  match st with
  | none => ⟨uid, cid, today, 1⟩
  | some p => updateStudyProgress today p

/-- The (user, course) progress row produced by a sequence of completion
events on the given dates, starting from no row. -/
def processCompletions (uid cid : Nat) (dates : List Int) : Option StudyProgress :=
  dates.foldl (fun st d => some (progressStep uid cid st d)) none

/-- Is the date sequence non-decreasing (events processed in calendar
order)? -/
def isNonDecreasing : List Int → Bool
  | [] => true
  | [_] => true
  | a :: b :: rest => a ≤ b && isNonDecreasing (b :: rest)

/-- Modelled from the spec: scanning backwards from the last date, skip
same-day repeats and extend the run through each preceding consecutive
calendar day; stop at the first gap. -/
def backRun (d : Int) : List Int → Int
  | [] => 1
  | x :: xs => if x = d then backRun d xs else if x = d - 1 then backRun x xs + 1 else 1

/-- The trailing-run length of a date sequence given newest-first. -/
def trailingStreakRev : List Int → Int
  | [] => 0
  | d :: rest => backRun d rest

/-- Modelled from the spec: the length of the longest trailing run of
consecutive calendar days ending at the last date, with same-day repeats
collapsed. -/
def trailingStreak (dates : List Int) : Int :=
  trailingStreakRev dates.reverse

/-- Course resolution predicate of `mark_topic_completed`:
`Course.user_id == user_id AND Course.name ILIKE '%course_name%'`. -/
def coursePred (uid : Nat) (course_name : String) (c : Course) : Bool :=
  c.user_id == uid && ilikeContains c.name course_name

/-- Topic resolution predicate of `mark_topic_completed`:
`Topic.course_id == course.id AND Topic.title ILIKE '%topic_title%'`. -/
def topicPred (cid : Nat) (topic_title : String) (t : Topic) : Bool :=
  t.course_id == cid && ilikeContains t.title topic_title

/-- Flip a topic row to completed and stamp `completed_at = now`. -/
def completeTopicRow (now : Int) (t : Topic) : Topic :=
  { t with is_completed := true, completed_at := some now }

/-- `query(Topic).filter_by(course_id=..., is_completed=True).count()`. -/
def countCompleted (ts : List Topic) (cid : Nat) : Int :=
  ((ts.filter (fun t => t.course_id == cid && t.is_completed)).length : Int)

/-- The shared completion block of `mark_topic_completed` and
`mark_topic_completed_by_id` once the course and a not-yet-completed topic
are resolved: flip the topic, recount the course's completed topics (the
count query runs after the flip), and run the streak update. -/
def applyCompletion (db : DB) (uid : Nat) (course : Course) (topic : Topic)
    (today now : Int) : DB :=
  let topics' := db.topics.map (fun t => if t.id == topic.id then completeTopicRow now t else t)
  let courses' := db.courses.map (fun c =>
    if c.id == course.id then { c with completed_topics := countCompleted topics' course.id }
    else c)
  { db with
      topics := topics'
      courses := courses'
      progresses := update_study_progress db.progresses uid course.id today }

/-- `DatabaseManager.mark_topic_completed`: resolve the course by
case-insensitive substring match on its name, then the topic by
case-insensitive substring match on its title (`.first()` on each); return
`false` when either lookup fails, a no-op `true` when the topic is already
completed, and otherwise complete it and return `true`. -/
def mark_topic_completed (db : DB) (uid : Nat) (course_name topic_title : String)
    (today now : Int) : Bool × DB :=
  match db.courses.find? (coursePred uid course_name) with
  | none => (false, db)
  | some course =>
    match db.topics.find? (topicPred course.id topic_title) with
    | none => (false, db)
    | some topic =>
      if topic.is_completed then (true, db)
      else (true, applyCompletion db uid course topic today now)

/-- `DatabaseManager.mark_topic_completed_by_id`: exact topic-id lookup,
then an ownership check that the topic's course belongs to the user; same
completion semantics as `mark_topic_completed`. -/
def mark_topic_completed_by_id (db : DB) (uid : Nat) (topic_id : Nat)
    (today now : Int) : Bool × DB :=
  match db.topics.find? (fun t => t.id == topic_id) with
  | none => (false, db)
  | some topic =>
    match db.courses.find? (fun c => c.id == topic.course_id && c.user_id == uid) with
    | none => (false, db)
    | some course =>
      if topic.is_completed then (true, db)
      else (true, applyCompletion db uid course topic today now)

/-- `DatabaseManager.add_topic`: a (course, title) duplicate returns the
existing id unchanged; otherwise the new topic row is inserted and, when the
course row exists, `total_topics` is set to `count + 1` where `count` is the
topic count of the course *after* the insert — the session autoflushes the
pending row before the course lookup and the count query run, so the count
already includes the new topic. -/
def add_topic (db : DB) (course_id : Nat) (title : String) (week : Int)
    (newId : Nat) : Nat × DB :=
  match db.topics.find? (fun t => t.course_id == course_id && t.title == title) with
  | some existing => (existing.id, db)
  | none =>
    let topics' := db.topics ++ [⟨newId, course_id, title, week, false, none⟩]
    match db.courses.find? (fun c => c.id == course_id) with
    | some course =>
      let count := (topics'.filter (fun t => t.course_id == course_id)).length
      let courses' := db.courses.map (fun c =>
        if c.id == course.id then { c with total_topics := (count : Int) + 1 } else c)
      (newId, { db with topics := topics', courses := courses' })
    | none => (newId, { db with topics := topics' })

/-- `DatabaseManager.get_avg_quiz_score`: `none` when the course has no
topics or no quiz of the user on the course's topics has
`total_questions > 0`; otherwise the arithmetic mean of
`(score / total_questions) * 100` over those quizzes. -/
def get_avg_quiz_score (db : DB) (uid cid : Nat) : Option ℚ :=
  let topicIds := (db.topics.filter (fun t => t.course_id == cid)).map (fun t => t.id)
  if topicIds.isEmpty then none
  else
    let quizzes := db.quizzes.filter (fun q =>
      q.user_id == uid && topicIds.contains q.topic_id && decide (q.total_questions > 0))
    if quizzes.isEmpty then none
    else
      let totalPct := (quizzes.map (fun q => ((q.score : ℚ) / (q.total_questions : ℚ)) * 100)).sum
      some (totalPct / (quizzes.length : ℚ))

lemma processCompletions_concat (uid cid : Nat) (l : List Int) (d : Int) :
    processCompletions uid cid (l ++ [d]) =
      some (progressStep uid cid (processCompletions uid cid l) d) := by
  unfold processCompletions
  rw [List.foldl_append]
  rfl

lemma processCompletions_concat_eq (uid cid : Nat) :
    ∀ (l : List Int) (d : Int),
      processCompletions uid cid (l ++ [d]) =
        some ⟨uid, cid, d, trailingStreak (l ++ [d])⟩ := by
  intro l
  induction l using List.reverseRecOn with
  | nil =>
    intro d
    simp [processCompletions, progressStep, trailingStreak, trailingStreakRev, backRun]
  | append_singleton l e ih =>
    intro d
    rw [processCompletions_concat, ih e]
    have h1 : trailingStreak ((l ++ [e]) ++ [d]) = backRun d (e :: l.reverse) := by
      simp [trailingStreak, trailingStreakRev]
    have h2 : trailingStreak (l ++ [e]) = backRun e l.reverse := by
      simp [trailingStreak, trailingStreakRev]
    rw [h1, h2]
    show some (updateStudyProgress d ⟨uid, cid, e, backRun e l.reverse⟩) = _
    by_cases he : e = d
    · subst he
      simp [updateStudyProgress, backRun]
    · by_cases he2 : e = d - 1
      · simp only [updateStudyProgress, backRun]
        rw [if_neg (by simpa using he), if_pos (by simpa using he2),
          if_neg he, if_pos he2]
      · simp only [updateStudyProgress, backRun]
        rw [if_neg (by simpa using he), if_neg (by simpa using he2),
          if_neg he, if_neg he2]

lemma progressPred_updateStudyProgress (uid cid : Nat) (today : Int)
    (q : StudyProgress) :
    progressPred uid cid (updateStudyProgress today q) = progressPred uid cid q := by
  unfold updateStudyProgress progressPred
  split_ifs <;> rfl

lemma find?_updateFirst {α : Type} (p : α → Bool) (f : α → α)
    (hf : ∀ x, p (f x) = p x) :
    ∀ l : List α, (updateFirst p f l).find? p = (l.find? p).map f := by
  intro l
  induction l with
  | nil => simp [updateFirst]
  | cons x xs ih =>
    by_cases hx : p x = true
    · simp [updateFirst, hx, List.find?_cons_of_pos, hf]
    · have hx' : p x = false := by simpa using hx
      simp [updateFirst, hx', List.find?_cons_of_neg, hf, ih]

lemma update_study_progress_find? (ps : List StudyProgress) (uid cid : Nat)
    (today : Int) :
    (update_study_progress ps uid cid today).find? (progressPred uid cid) =
      some (progressStep uid cid (ps.find? (progressPred uid cid)) today) := by
  unfold update_study_progress
  cases hfind : ps.find? (progressPred uid cid) with
  | none =>
    simp [List.find?_append, hfind, progressStep, progressPred]
  | some prow =>
    simp only [progressStep]
    rw [find?_updateFirst _ _ (progressPred_updateStudyProgress uid cid today), hfind]
    rfl

/-- C1: the streak update of `_update_study_progress` behaves as specified —
unchanged on a same-day repeat, incremented when the last study date is
yesterday, reset to 1 on any other date (gap of two or more days, or a
future date), and a fresh row with streak 1 when none exists — and
consequently, after processing completions on non-decreasing dates, the
streak equals the length of the longest trailing run of consecutive
calendar days ending at the last date, with same-day repeats collapsed. -/
theorem streak_update_spec :
    (∀ (today : Int) (p : StudyProgress), p.last_study_date = today →
        updateStudyProgress today p = p) ∧
    (∀ (today : Int) (p : StudyProgress), p.last_study_date = today - 1 →
        updateStudyProgress today p =
          { p with streak_days := p.streak_days + 1, last_study_date := today }) ∧
    (∀ (today : Int) (p : StudyProgress),
        p.last_study_date ≠ today → p.last_study_date ≠ today - 1 →
        updateStudyProgress today p =
          { p with streak_days := 1, last_study_date := today }) ∧
    (∀ (ps : List StudyProgress) (uid cid : Nat) (today : Int),
        (update_study_progress ps uid cid today).find? (progressPred uid cid) =
          some (progressStep uid cid (ps.find? (progressPred uid cid)) today)) ∧
    (∀ (uid cid : Nat) (l : List Int) (d : Int),
        isNonDecreasing (l ++ [d]) = true →
        processCompletions uid cid (l ++ [d]) =
          some ⟨uid, cid, d, trailingStreak (l ++ [d])⟩) := by
  refine ⟨?_, ?_, ?_, ?_, ?_⟩
  · intro today p h
    simp [updateStudyProgress, h]
  · intro today p h
    unfold updateStudyProgress
    rw [if_neg (by omega), if_pos h]
  · intro today p h1 h2
    unfold updateStudyProgress
    rw [if_neg h1, if_neg h2]
  · intro ps uid cid today
    exact update_study_progress_find? ps uid cid today
  · intro uid cid l d _
    exact processCompletions_concat_eq uid cid l d

/-- Witness for C1: yesterday's row is incremented, and the sequence of
completion dates 0, 1, 3, 4, 5 yields a streak of 3. -/
theorem streak_update_spec_witness :
    updateStudyProgress 5 ⟨1, 2, 4, 7⟩ = ⟨1, 2, 5, 8⟩ ∧
    processCompletions 1 2 ([0, 1, 3, 4] ++ [5]) = some ⟨1, 2, 5, 3⟩ := by
  constructor
  · have h := streak_update_spec.2.1 5 ⟨1, 2, 4, 7⟩ (by decide)
    rw [h]
    decide
  · have h := streak_update_spec.2.2.2.2 1 2 [0, 1, 3, 4] 5 (by decide)
    rw [h]
    decide

lemma find?_map_of_pred {α : Type} (p : α → Bool) (g : α → α)
    (hg : ∀ x, p (g x) = p x) (l : List α) :
    (l.map g).find? p = (l.find? p).map g := by
  induction l with
  | nil => rfl
  | cons x xs ih =>
    by_cases hx : p x = true
    · rw [List.map_cons, List.find?_cons_of_pos _ (by rw [hg]; exact hx),
        List.find?_cons_of_pos _ hx, Option.map_some']
    · have hx' : ¬ p x := hx
      rw [List.map_cons, List.find?_cons_of_neg _ (by rw [hg]; exact hx'),
        List.find?_cons_of_neg _ hx', ih]

/-- C2: when `mark_topic_completed` (by name) or `mark_topic_completed_by_id`
flips a topic to completed, the resolved course's `completed_topics` equals
the exact count of that course's completed topics in the resulting store:
the counter is recomputed by counting. -/
theorem completed_topics_recomputed :
    (∀ (db : DB) (uid : Nat) (course_name topic_title : String) (today now : Int)
        (course : Course) (topic : Topic),
        db.courses.find? (coursePred uid course_name) = some course →
        db.topics.find? (topicPred course.id topic_title) = some topic →
        topic.is_completed = false →
        ∀ c' ∈ (mark_topic_completed db uid course_name topic_title today now).2.courses,
          c'.id = course.id →
          c'.completed_topics =
            countCompleted
              (mark_topic_completed db uid course_name topic_title today now).2.topics
              course.id) ∧
    (∀ (db : DB) (uid topic_id : Nat) (today now : Int)
        (course : Course) (topic : Topic),
        db.topics.find? (fun t => t.id == topic_id) = some topic →
        db.courses.find? (fun c => c.id == topic.course_id && c.user_id == uid) =
          some course →
        topic.is_completed = false →
        ∀ c' ∈ (mark_topic_completed_by_id db uid topic_id today now).2.courses,
          c'.id = course.id →
          c'.completed_topics =
            countCompleted
              (mark_topic_completed_by_id db uid topic_id today now).2.topics
              course.id) := by
  constructor
  · intro db uid course_name topic_title today now course topic hc ht hnc c' hmem hid
    have heq : mark_topic_completed db uid course_name topic_title today now =
        (true, applyCompletion db uid course topic today now) := by
      unfold mark_topic_completed
      rw [hc]
      dsimp only
      rw [ht]
      dsimp only
      rw [hnc]
      rfl
    rw [heq] at hmem ⊢
    simp only [applyCompletion, List.mem_map] at hmem ⊢
    obtain ⟨c, _, rfl⟩ := hmem
    by_cases hcid : (c.id == course.id) = true
    · simp [hcid]
    · exfalso
      simp only [hcid, if_false, Bool.false_eq_true] at hid
      exact hcid (by simpa using hid)
  · intro db uid topic_id today now course topic ht hc hnc c' hmem hid
    have heq : mark_topic_completed_by_id db uid topic_id today now =
        (true, applyCompletion db uid course topic today now) := by
      unfold mark_topic_completed_by_id
      rw [ht]
      dsimp only
      rw [hc]
      dsimp only
      rw [hnc]
      rfl
    rw [heq] at hmem ⊢
    simp only [applyCompletion, List.mem_map] at hmem ⊢
    obtain ⟨c, _, rfl⟩ := hmem
    by_cases hcid : (c.id == course.id) = true
    · simp [hcid]
    · exfalso
      simp only [hcid, if_false, Bool.false_eq_true] at hid
      exact hcid (by simpa using hid)

/-- Concrete store for the completion witnesses: user 10 owns course 1
("Math") with a single not-yet-completed topic 5 ("Algebra"). -/
def smallDb : DB :=
  ⟨[⟨1, 10, "Math", "", 1, 0⟩], [⟨5, 1, "Algebra", 1, false, none⟩], [], []⟩

/-- Witness for C2: completing "Algebra" in `smallDb` leaves the course row
with `completed_topics` equal to the recomputed count 1. -/
theorem completed_topics_recomputed_witness :
    (⟨1, 10, "Math", "", 1, 1⟩ : Course).completed_topics =
      countCompleted (mark_topic_completed smallDb 10 "math" "alg" 3 4).2.topics 1 := by
  exact completed_topics_recomputed.1 smallDb 10 "math" "alg" 3 4
    ⟨1, 10, "Math", "", 1, 0⟩ ⟨5, 1, "Algebra", 1, false, none⟩
    (by decide) (by decide) rfl ⟨1, 10, "Math", "", 1, 1⟩ (by decide) rfl

lemma topicPred_complete (cid : Nat) (tt : String) (now : Int) (topicId : Nat)
    (t : Topic) :
    topicPred cid tt (if t.id == topicId then completeTopicRow now t else t) =
      topicPred cid tt t := by
  by_cases h : (t.id == topicId) = true
  · rw [if_pos h]; rfl
  · rw [if_neg h]

lemma idPred_complete (topicId lookupId : Nat) (now : Int) (t : Topic) :
    ((if t.id == topicId then completeTopicRow now t else t).id == lookupId) =
      (t.id == lookupId) := by
  by_cases h : (t.id == topicId) = true
  · rw [if_pos h]; rfl
  · rw [if_neg h]

lemma coursePred_recount (uid : Nat) (cn : String) (courseId : Nat) (n : Int)
    (c : Course) :
    coursePred uid cn (if c.id == courseId then { c with completed_topics := n } else c) =
      coursePred uid cn c := by
  by_cases h : (c.id == courseId) = true
  · rw [if_pos h]; rfl
  · rw [if_neg h]

lemma ownPred_recount (cid uid courseId : Nat) (n : Int) (c : Course) :
    (((if c.id == courseId then { c with completed_topics := n } else c).id == cid) &&
        ((if c.id == courseId then { c with completed_topics := n } else c).user_id == uid)) =
      ((c.id == cid) && (c.user_id == uid)) := by
  by_cases h : (c.id == courseId) = true
  · rw [if_pos h]
  · rw [if_neg h]

lemma mark_fixed_point (db db₁ : DB) (uid : Nat) (cn tt : String) (today now : Int)
    (h : mark_topic_completed db uid cn tt today now = (true, db₁)) :
    mark_topic_completed db₁ uid cn tt today now = (true, db₁) := by
  unfold mark_topic_completed at h
  cases hc : db.courses.find? (coursePred uid cn) with
  | none => rw [hc] at h; simp at h
  | some course =>
    rw [hc] at h
    dsimp only at h
    cases ht : db.topics.find? (topicPred course.id tt) with
    | none => rw [ht] at h; simp at h
    | some topic =>
      rw [ht] at h
      dsimp only at h
      by_cases hdone : topic.is_completed = true
      · rw [if_pos hdone] at h
        injection h with _ h2
        subst h2
        unfold mark_topic_completed
        rw [hc]
        dsimp only
        rw [ht]
        dsimp only
        rw [if_pos hdone]
      · rw [if_neg hdone] at h
        injection h with _ h2
        subst h2
        have hc2 : (applyCompletion db uid course topic today now).courses.find?
            (coursePred uid cn) =
            some { course with completed_topics := countCompleted (db.topics.map (fun t => if t.id == topic.id then completeTopicRow now t else t)) course.id } := by
          show (db.courses.map (fun c => if c.id == course.id then { c with completed_topics := countCompleted (db.topics.map (fun t => if t.id == topic.id then completeTopicRow now t else t)) course.id } else c)).find? (coursePred uid cn) = _
          rw [find?_map_of_pred _ _ (coursePred_recount uid cn course.id _), hc,
            Option.map_some']
          rw [if_pos (beq_self_eq_true course.id)]
        have ht2 : (applyCompletion db uid course topic today now).topics.find?
            (topicPred course.id tt) = some (completeTopicRow now topic) := by
          show (db.topics.map (fun t => if t.id == topic.id then
              completeTopicRow now t else t)).find? (topicPred course.id tt) = _
          rw [find?_map_of_pred _ _ (topicPred_complete course.id tt now topic.id), ht,
            Option.map_some']
          rw [if_pos (beq_self_eq_true topic.id)]
        unfold mark_topic_completed
        rw [hc2]
        dsimp only
        rw [ht2]
        dsimp only
        rw [if_pos (show (completeTopicRow now topic).is_completed = true from rfl)]

lemma mark_by_id_fixed_point (db db₁ : DB) (uid tid : Nat) (today now : Int)
    (h : mark_topic_completed_by_id db uid tid today now = (true, db₁)) :
    mark_topic_completed_by_id db₁ uid tid today now = (true, db₁) := by
  unfold mark_topic_completed_by_id at h
  cases ht : db.topics.find? (fun t => t.id == tid) with
  | none => rw [ht] at h; simp at h
  | some topic =>
    rw [ht] at h
    dsimp only at h
    cases hc : db.courses.find? (fun c => c.id == topic.course_id && c.user_id == uid) with
    | none => rw [hc] at h; simp at h
    | some course =>
      rw [hc] at h
      dsimp only at h
      by_cases hdone : topic.is_completed = true
      · rw [if_pos hdone] at h
        injection h with _ h2
        subst h2
        unfold mark_topic_completed_by_id
        rw [ht]
        dsimp only
        rw [hc]
        dsimp only
        rw [if_pos hdone]
      · rw [if_neg hdone] at h
        injection h with _ h2
        subst h2
        have ht2 : (applyCompletion db uid course topic today now).topics.find?
            (fun t => t.id == tid) = some (completeTopicRow now topic) := by
          show (db.topics.map (fun t => if t.id == topic.id then
              completeTopicRow now t else t)).find? (fun t => t.id == tid) = _
          rw [find?_map_of_pred _ _ (idPred_complete topic.id tid now), ht,
            Option.map_some']
          rw [if_pos (beq_self_eq_true topic.id)]
        have hc2 : (applyCompletion db uid course topic today now).courses.find?
            (fun c => c.id == (completeTopicRow now topic).course_id && c.user_id == uid) =
            some { course with completed_topics := countCompleted (db.topics.map (fun t => if t.id == topic.id then completeTopicRow now t else t)) course.id } := by
          show (db.courses.map (fun c => if c.id == course.id then { c with completed_topics := countCompleted (db.topics.map (fun t => if t.id == topic.id then completeTopicRow now t else t)) course.id } else c)).find? (fun c => c.id == topic.course_id && c.user_id == uid) = _
          rw [find?_map_of_pred _ _ (fun c => ownPred_recount topic.course_id uid course.id _ c),
            hc, Option.map_some']
          rw [if_pos (beq_self_eq_true course.id)]
        unfold mark_topic_completed_by_id
        rw [ht2]
        dsimp only
        rw [hc2]
        dsimp only
        rw [if_pos (show (completeTopicRow now topic).is_completed = true from rfl)]

/-- C3: completion marking is idempotent and failure-safe, for both
`mark_topic_completed` and `mark_topic_completed_by_id`: an unresolved
course or topic returns `false` with the store unchanged; an
already-completed topic is a no-op returning `true`; and once a call has
returned `true`, repeating it leaves the store unchanged and still returns
`true` (only the first call changes the topic's state). -/
theorem mark_topic_completed_idempotent :
    (∀ (db : DB) (uid : Nat) (cn tt : String) (today now : Int),
        db.courses.find? (coursePred uid cn) = none →
        mark_topic_completed db uid cn tt today now = (false, db)) ∧
    (∀ (db : DB) (uid : Nat) (cn tt : String) (today now : Int) (course : Course),
        db.courses.find? (coursePred uid cn) = some course →
        db.topics.find? (topicPred course.id tt) = none →
        mark_topic_completed db uid cn tt today now = (false, db)) ∧
    (∀ (db : DB) (uid : Nat) (cn tt : String) (today now : Int)
        (course : Course) (topic : Topic),
        db.courses.find? (coursePred uid cn) = some course →
        db.topics.find? (topicPred course.id tt) = some topic →
        topic.is_completed = true →
        mark_topic_completed db uid cn tt today now = (true, db)) ∧
    (∀ (db db₁ : DB) (uid : Nat) (cn tt : String) (today now : Int),
        mark_topic_completed db uid cn tt today now = (true, db₁) →
        mark_topic_completed db₁ uid cn tt today now = (true, db₁)) ∧
    (∀ (db : DB) (uid tid : Nat) (today now : Int),
        db.topics.find? (fun t => t.id == tid) = none →
        mark_topic_completed_by_id db uid tid today now = (false, db)) ∧
    (∀ (db : DB) (uid tid : Nat) (today now : Int) (topic : Topic),
        db.topics.find? (fun t => t.id == tid) = some topic →
        db.courses.find? (fun c => c.id == topic.course_id && c.user_id == uid) = none →
        mark_topic_completed_by_id db uid tid today now = (false, db)) ∧
    (∀ (db : DB) (uid tid : Nat) (today now : Int) (topic : Topic) (course : Course),
        db.topics.find? (fun t => t.id == tid) = some topic →
        db.courses.find? (fun c => c.id == topic.course_id && c.user_id == uid) =
          some course →
        topic.is_completed = true →
        mark_topic_completed_by_id db uid tid today now = (true, db)) ∧
    (∀ (db db₁ : DB) (uid tid : Nat) (today now : Int),
        mark_topic_completed_by_id db uid tid today now = (true, db₁) →
        mark_topic_completed_by_id db₁ uid tid today now = (true, db₁)) := by
  refine ⟨?_, ?_, ?_, ?_, ?_, ?_, ?_, ?_⟩
  · intro db uid cn tt today now h
    unfold mark_topic_completed
    rw [h]
  · intro db uid cn tt today now course hc ht
    unfold mark_topic_completed
    rw [hc]
    dsimp only
    rw [ht]
  · intro db uid cn tt today now course topic hc ht hdone
    unfold mark_topic_completed
    rw [hc]
    dsimp only
    rw [ht]
    dsimp only
    rw [if_pos hdone]
  · exact fun db db₁ uid cn tt today now h =>
      mark_fixed_point db db₁ uid cn tt today now h
  · intro db uid tid today now h
    unfold mark_topic_completed_by_id
    rw [h]
  · intro db uid tid today now topic ht hc
    unfold mark_topic_completed_by_id
    rw [ht]
    dsimp only
    rw [hc]
  · intro db uid tid today now topic course ht hc hdone
    unfold mark_topic_completed_by_id
    rw [ht]
    dsimp only
    rw [hc]
    dsimp only
    rw [if_pos hdone]
  · exact fun db db₁ uid tid today now h =>
      mark_by_id_fixed_point db db₁ uid tid today now h

/-- The store `smallDb` after completing its only topic at date 3, time 4. -/
def smallDbCompleted : DB :=
  ⟨[⟨1, 10, "Math", "", 1, 1⟩], [⟨5, 1, "Algebra", 1, true, some 4⟩], [],
    [⟨10, 1, 3, 1⟩]⟩

/-- Witness for C3: the first completion call on `smallDb` produces
`smallDbCompleted`, and repeating the call on `smallDbCompleted` returns
`true` and leaves it unchanged. -/
theorem mark_topic_completed_idempotent_witness :
    mark_topic_completed smallDbCompleted 10 "math" "alg" 3 4 =
      (true, smallDbCompleted) := by
  exact mark_topic_completed_idempotent.2.2.2.1 smallDb smallDbCompleted
    10 "math" "alg" 3 4 (by decide)

/-- Store with one course (id 1, user 10) and no topics yet, before an
`add_topic` call. -/
def c6Db : DB := ⟨[⟨1, 10, "Math", "", 10, 0⟩], [], [], []⟩

/-- C6: refuted at a concrete input.  Adding the first topic to a course
with no topics leaves `total_topics = 2` while the course has exactly one
topic row: `add_topic` sets `total_topics = count + 1`, but the session has
already autoflushed the pending insert when the count query runs, so `count`
already includes the new topic and the counter overshoots by one. -/
theorem add_topic_overcounts_total_topics :
    ((add_topic c6Db 1 "Algebra" 1 5).2.courses.map (fun c => c.total_topics)) = [2] ∧
    (((add_topic c6Db 1 "Algebra" 1 5).2.topics.filter
        (fun t => t.course_id == 1)).length : Int) = 1 ∧
    (2 : Int) ≠ 1 := by
  refine ⟨by decide, by decide, by decide⟩

/-- Store for the quiz-average example: user 10's course 1 has topic 5 with
two quizzes scoring 3/5 and 4/5. -/
def c7Db : DB :=
  ⟨[⟨1, 10, "Math", "", 1, 0⟩], [⟨5, 1, "T", 1, false, none⟩],
    [⟨10, 5, 3, 5⟩, ⟨10, 5, 4, 5⟩], []⟩

lemma isEmpty_map {α β : Type} (f : α → β) (l : List α) :
    (l.map f).isEmpty = l.isEmpty := by
  cases l <;> rfl

/-- C7: `get_avg_quiz_score` returns the no-data sentinel when the course
has zero topics, or when zero quizzes of the user on the course's topics
have `total_questions > 0`; otherwise it returns the arithmetic mean of
`(score/total)*100` over those quizzes — in particular `some 70` for the
quizzes (3,5) and (4,5). -/
theorem get_avg_quiz_score_spec :
    (∀ (db : DB) (uid cid : Nat),
        (db.topics.filter (fun t => t.course_id == cid)).isEmpty = true →
        get_avg_quiz_score db uid cid = none) ∧
    (∀ (db : DB) (uid cid : Nat),
        (db.quizzes.filter (fun q => q.user_id == uid &&
            ((db.topics.filter (fun t => t.course_id == cid)).map
              (fun t => t.id)).contains q.topic_id &&
            decide (q.total_questions > 0))).isEmpty = true →
        get_avg_quiz_score db uid cid = none) ∧
    (∀ (db : DB) (uid cid : Nat) (qs : List Quiz),
        qs = db.quizzes.filter (fun q => q.user_id == uid &&
            ((db.topics.filter (fun t => t.course_id == cid)).map
              (fun t => t.id)).contains q.topic_id &&
            decide (q.total_questions > 0)) →
        (db.topics.filter (fun t => t.course_id == cid)).isEmpty = false →
        qs.isEmpty = false →
        get_avg_quiz_score db uid cid =
          some ((qs.map (fun q => ((q.score : ℚ) / (q.total_questions : ℚ)) * 100)).sum /
            (qs.length : ℚ))) ∧
    get_avg_quiz_score c7Db 10 1 = some 70 := by
  refine ⟨?_, ?_, ?_, ?_⟩
  · intro db uid cid h
    unfold get_avg_quiz_score
    rw [if_pos]
    rw [isEmpty_map]
    exact h
  · intro db uid cid h
    unfold get_avg_quiz_score
    by_cases ht : ((db.topics.filter (fun t => t.course_id == cid)).map
        (fun t => t.id)).isEmpty = true
    · rw [if_pos ht]
    · rw [if_neg ht, if_pos h]
  · intro db uid cid qs hqs ht hq
    unfold get_avg_quiz_score
    rw [if_neg, ← hqs, if_neg]
    · rw [hq]
      exact Bool.false_ne_true
    · rw [isEmpty_map, ht]
      exact Bool.false_ne_true
  · unfold get_avg_quiz_score c7Db
    norm_num

/-- Witness for C7: a store with no topics at all yields the no-data
sentinel. -/
theorem get_avg_quiz_score_spec_witness :
    get_avg_quiz_score ⟨[], [], [], []⟩ 1 1 = none := by
  exact get_avg_quiz_score_spec.1 ⟨[], [], [], []⟩ 1 1 (by decide)

/-- `models.PriorityLevel`: the three task priority levels. -/
inductive PriorityLevel where
  | LOW
  | MEDIUM
  | HIGH
  deriving Repr, DecidableEq

/-- A row of the `tasks` table (`models.Task`); `due_date` is an optional
local-time timestamp in seconds. -/
structure Task where
  id : Nat
  user_id : Nat
  title : String
  description : Option String
  priority : PriorityLevel
  due_date : Option Int
  is_completed : Bool
  completed_at : Option Int
  deriving Repr, DecidableEq

/-- `ORDER BY due_date ASC` comparison on tasks (all rows sorted by
`get_today_tasks` carry a due date). -/
def dueLe (a b : Task) : Prop := a.due_date.getD 0 ≤ b.due_date.getD 0

instance : DecidableRel dueLe := fun x y => Int.decLe (x.due_date.getD 0) (y.due_date.getD 0)

/-- Seconds in a day: `timedelta(days=1)`. -/
def SECONDS_PER_DAY : Int := 86400

/-- `DatabaseManager.get_today_tasks`: the user's tasks with
`is_completed == False` and `today_start <= due_date < today_start + 1 day`
(a row with `due_date` NULL never satisfies the SQL comparison), ordered by
due date ascending.  `todayStart` is the local midnight computed from
`datetime.now()`. -/
def get_today_tasks (tasks : List Task) (uid : Nat) (todayStart : Int) : List Task :=
  let todayEnd := todayStart + SECONDS_PER_DAY
  (tasks.filter (fun t => t.user_id == uid && !t.is_completed &&
      (match t.due_date with
       | some d => decide (todayStart ≤ d) && decide (d < todayEnd)
       | none => false))).insertionSort dueLe

/-- A task for user 10 due one second before next midnight (23:59:59 local
with `todayStart = 0`). -/
def taskDueLate : Task := ⟨1, 10, "a", none, PriorityLevel.MEDIUM, some 86399, false, none⟩

/-- A task for user 10 due exactly at the next local midnight. -/
def taskDueMidnight : Task := ⟨2, 10, "b", none, PriorityLevel.MEDIUM, some 86400, false, none⟩

/-- C8: `get_today_tasks` returns exactly the user's incomplete tasks whose
due date lies in `[local midnight, local midnight + 24h)`; in particular a
task due at 23:59:59 today is included and one due at 00:00:00 the next day
is excluded. -/
theorem get_today_tasks_spec :
    (∀ (tasks : List Task) (uid : Nat) (todayStart : Int) (t : Task),
        t ∈ get_today_tasks tasks uid todayStart ↔
          t ∈ tasks ∧ t.user_id = uid ∧ t.is_completed = false ∧
            ∃ d, t.due_date = some d ∧ todayStart ≤ d ∧ d < todayStart + SECONDS_PER_DAY) ∧
    get_today_tasks [taskDueLate, taskDueMidnight] 10 0 = [taskDueLate] := by
  constructor
  · intro tasks uid todayStart t
    unfold get_today_tasks
    rw [(List.perm_insertionSort dueLe _).mem_iff, List.mem_filter]
    cases hd : t.due_date with
    | none => simp [hd]
    | some d => simp [hd, and_assoc]
  · decide

/-- `str.lower` restricted to the characters that can influence the
priority-vocabulary lookup.  An exhaustive scan of Unicode shows the only
code points whose Python lowercase consists solely of vocabulary letters
(d, e, g, h, i, k, l, m, o, r, s, t, u, w, y, a, ü, ş) are the ASCII
uppercase letters, 'Ü' (U+00DC), 'Ş' (U+015E) and the Kelvin sign 'K'
(U+212A, lowercased to 'k'); these are mapped here (plus the other Turkish
uppercase letters, which Python lowercases the same way).  Every other
character either is fixed by `str.lower` or lowercases to something
containing a non-vocabulary character (e.g. 'İ' becomes "i" plus a
combining dot), so the lookup misses in both Python and this model and the
parse result is unchanged. -/
def pyLowerChar (c : Char) : Char :=
  if 'A' ≤ c ∧ c ≤ 'Z' then Char.ofNat (c.toNat + 32)
  else if c = 'Ü' then 'ü'
  else if c = 'Ş' then 'ş'
  else if c = 'Ö' then 'ö'
  else if c = 'Ç' then 'ç'
  else if c = 'Ğ' then 'ğ'
  else if c.toNat = 0x212A then 'k'
  else c

/-- `priority.lower()`. -/
def pyLower (s : String) : String := ⟨s.data.map pyLowerChar⟩

/-- The `priority_map` dict of `ScheduleManager.add_task`. -/
def priority_map : List (String × PriorityLevel) :=
  [("düşük", PriorityLevel.LOW), ("dusuk", PriorityLevel.LOW), ("low", PriorityLevel.LOW),
   ("orta", PriorityLevel.MEDIUM), ("medium", PriorityLevel.MEDIUM),
   ("yüksek", PriorityLevel.HIGH), ("yuksek", PriorityLevel.HIGH),
   ("high", PriorityLevel.HIGH)]

/-- `priority_map.get(priority.lower(), PriorityLevel.MEDIUM)`. -/
def parsePriority (s : String) : PriorityLevel :=
  match priority_map.lookup (pyLower s) with
  | some p => p
  | none => PriorityLevel.MEDIUM

lemma parsePriority_eq_chain (s : String) :
    parsePriority s =
      (if pyLower s = "düşük" then PriorityLevel.LOW
       else if pyLower s = "dusuk" then PriorityLevel.LOW
       else if pyLower s = "low" then PriorityLevel.LOW
       else if pyLower s = "orta" then PriorityLevel.MEDIUM
       else if pyLower s = "medium" then PriorityLevel.MEDIUM
       else if pyLower s = "yüksek" then PriorityLevel.HIGH
       else if pyLower s = "yuksek" then PriorityLevel.HIGH
       else if pyLower s = "high" then PriorityLevel.HIGH
       else PriorityLevel.MEDIUM) := by
  unfold parsePriority priority_map
  by_cases h1 : pyLower s = "düşük"
  · simp [List.lookup, beq_iff_eq, h1]
  by_cases h2 : pyLower s = "dusuk"
  · simp [List.lookup, beq_iff_eq, h1, h2]
  by_cases h3 : pyLower s = "low"
  · simp [List.lookup, beq_iff_eq, h1, h2, h3]
  by_cases h4 : pyLower s = "orta"
  · simp [List.lookup, beq_iff_eq, h1, h2, h3, h4]
  by_cases h5 : pyLower s = "medium"
  · simp [List.lookup, beq_iff_eq, h1, h2, h3, h4, h5]
  by_cases h6 : pyLower s = "yüksek"
  · simp [List.lookup, beq_iff_eq, h1, h2, h3, h4, h5, h6]
  by_cases h7 : pyLower s = "yuksek"
  · simp [List.lookup, beq_iff_eq, h1, h2, h3, h4, h5, h6, h7]
  by_cases h8 : pyLower s = "high"
  · simp [List.lookup, beq_iff_eq, h1, h2, h3, h4, h5, h6, h7, h8]
  · have n1 := beq_eq_false_iff_ne.mpr h1
    have n2 := beq_eq_false_iff_ne.mpr h2
    have n3 := beq_eq_false_iff_ne.mpr h3
    have n4 := beq_eq_false_iff_ne.mpr h4
    have n5 := beq_eq_false_iff_ne.mpr h5
    have n6 := beq_eq_false_iff_ne.mpr h6
    have n7 := beq_eq_false_iff_ne.mpr h7
    have n8 := beq_eq_false_iff_ne.mpr h8
    simp [List.lookup, n1, n2, n3, n4, n5, n6, n7, n8, h1, h2, h3, h4, h5, h6, h7, h8]

/-- C9: priority parsing is total — every input maps to exactly one of the
three levels via a case-insensitive lookup of the fixed Turkish/English
vocabulary, and every unrecognized input maps to MEDIUM. -/
theorem parse_priority_total :
    (∀ s : String,
        parsePriority s = PriorityLevel.LOW ∨ parsePriority s = PriorityLevel.MEDIUM ∨
          parsePriority s = PriorityLevel.HIGH) ∧
    (∀ s : String, parsePriority s = PriorityLevel.LOW ↔
        pyLower s ∈ ["düşük", "dusuk", "low"]) ∧
    (∀ s : String, parsePriority s = PriorityLevel.HIGH ↔
        pyLower s ∈ ["yüksek", "yuksek", "high"]) ∧
    (∀ s : String,
        pyLower s ∉ ["düşük", "dusuk", "low", "orta", "medium", "yüksek", "yuksek", "high"] →
        parsePriority s = PriorityLevel.MEDIUM) ∧
    (parsePriority "DÜŞÜK" = PriorityLevel.LOW ∧ parsePriority "Low" = PriorityLevel.LOW ∧
      parsePriority "Orta" = PriorityLevel.MEDIUM ∧
      parsePriority "YUKSEK" = PriorityLevel.HIGH ∧
      parsePriority "yüksek" = PriorityLevel.HIGH ∧
      parsePriority "d\u00DC\u015E\u00DCk" = PriorityLevel.LOW ∧
      parsePriority "d\u00FC\u015F\u00FC\u212A" = PriorityLevel.LOW ∧
      parsePriority "whatever" = PriorityLevel.MEDIUM) := by
  refine ⟨?_, ?_, ?_, ?_, ?_⟩
  · intro s
    rw [parsePriority_eq_chain]
    split_ifs <;> simp
  · intro s
    rw [parsePriority_eq_chain]
    split_ifs <;> simp_all
  · intro s
    rw [parsePriority_eq_chain]
    split_ifs <;> simp_all
  · intro s h
    rw [parsePriority_eq_chain]
    simp only [List.mem_cons, List.not_mem_nil, or_false] at h
    push_neg at h
    obtain ⟨n1, n2, n3, n4, n5, n6, n7, n8⟩ := h
    rw [if_neg n1, if_neg n2, if_neg n3, if_neg n4, if_neg n5, if_neg n6, if_neg n7,
      if_neg n8]
  · refine ⟨by decide, by decide, by decide, by decide, by decide, by decide, by decide,
      by decide⟩

/-- Witness for C9: an input outside the vocabulary defaults to MEDIUM. -/
theorem parse_priority_total_witness :
    parsePriority "zzz" = PriorityLevel.MEDIUM := by
  exact parse_priority_total.2.2.2.1 "zzz" (by decide)

end Assistant
